import Mathlib

/-!
Verification of the learning-path-creator suggestion pipeline.

The development shallowly embeds the AI profile-suggestion pipeline of the
repository: the input schema `aiPromptSchema`, the response schemas
`suggestionSchema` / `aiResponseSchema` (src/lib/validation/schemas.ts), the
response cleaning and parsing function `parseSuggestions`, the rate-limiting
and caching queries, the store step and the response shape
(src/docs/ai-integration.md), and the `markComplete` query helper
(supabase client query helpers).

Strings are manipulated through explicit character lists so that every
definition is executable and kernel-reducible.
-/

/-- One AI-generated suggestion, as produced by `suggestionSchema`
(`{ title, reason, action }`, each a string). -/
structure Suggestion where
  title : String
  reason : String
  action : String
deriving DecidableEq, Repr

/-- The `experienceLevel` enum of `aiPromptSchema`
(`z.enum(['beginner', 'intermediate', 'advanced'])`). -/
inductive ExperienceLevel where
  | beginner
  | intermediate
  | advanced
deriving DecidableEq, Repr

/-- The raw (unvalidated) request body of POST /api/profile/suggestions:
`{ userBackground, currentGoals?, experienceLevel }` with all fields still
arbitrary strings. -/
structure RawBody where
  userBackground : String
  currentGoals : Option String
  experienceLevel : String
deriving DecidableEq, Repr

/-- The validated request body, the output of `aiPromptSchema`. -/
structure AiPromptInput where
  userBackground : String
  currentGoals : Option String
  experienceLevel : ExperienceLevel
deriving DecidableEq, Repr

/-! ### Character-level string helpers

`parseSuggestions` in src/docs/ai-integration.md works on JavaScript strings
(`trim`, two global regex replaces, and a `/\{[\s\S]*\}/` match).  We embed
these operations on `List Char`. -/

/-- The whitespace characters trimmed by JavaScript `String.prototype.trim`
(restricted to the ASCII whitespace actually relevant to model output). -/
def isWsChar (c : Char) : Bool :=
  c == ' ' || c == '\n' || c == '\t' || c == '\r'

/-- Trim whitespace from both ends of a character list (JS `trim`). -/
def trimChars (l : List Char) : List Char :=
  ((l.dropWhile isWsChar).reverse.dropWhile isWsChar).reverse

/-- Trim whitespace from both ends of a string (JS `trim`). -/
def trimS (s : String) : String :=
  String.mk (trimChars s.toList)

/-- The backtick character (written via its code point). -/
def btick : Char := Char.ofNat 96

/-- The pattern of the first replace in `parseSuggestions`:
`cleaned.replace(/\x60\x60\x60json\n?/g, '')`. -/
def fenceJsonPat : List Char := [btick, btick, btick, 'j', 's', 'o', 'n']

/-- The pattern of the second replace in `parseSuggestions`:
`cleaned.replace(/\x60\x60\x60\n?/g, '')`. -/
def fenceBarePat : List Char := [btick, btick, btick]

/-- Drop one optional newline, the `\n?` tail of both fence regexes. -/
def dropOptNl : List Char → List Char
  | '\n' :: rest => rest
  | l => l

/-- One global, left-to-right, non-overlapping regex replace of
`pat` followed by an optional newline with the empty string, exactly the
semantics of JS `replace(/pat\n?/g, '')`.  `fuel` bounds the recursion;
`fuel = l.length` always suffices because every step consumes at least one
character. -/
def replaceFence (pat : List Char) : Nat → List Char → List Char
  | 0, l => l
  | Nat.succ n, l =>
    if pat.isPrefixOf l ∧ pat ≠ [] then
      replaceFence pat n (dropOptNl (l.drop pat.length))
    else
      match l with
      | [] => []
      | c :: rest => c :: replaceFence pat n rest

/-- The two fence-removal replaces of `parseSuggestions`, in source order:
first `/\x60\x60\x60json\n?/g`, then `/\x60\x60\x60\n?/g`. -/
def cleanFences (l : List Char) : List Char :=
  let l1 := replaceFence fenceJsonPat l.length l
  replaceFence fenceBarePat l1.length l1

/-- Index of the first `'{'` in a character list (leftmost position at which
the JS regex `/\{[\s\S]*\}/` can start matching). -/
def firstBraceIdx : List Char → Option Nat
  | [] => none
  | c :: rest =>
    if c = '{' then some 0 else (firstBraceIdx rest).map (· + 1)

/-- Index of the last `'}'` in a character list (where the greedy
`[\s\S]*` of `/\{[\s\S]*\}/` ends its match). -/
def lastBraceIdx : List Char → Option Nat
  | [] => none
  | c :: rest =>
    match lastBraceIdx rest with
    | some j => some (j + 1)
    | none => if c = '}' then some 0 else none

/-- The JS `cleaned.match(/\{[\s\S]*\}/)`: the regex is greedy, so a match,
when one exists, runs from the first `'{'` to the last `'}'` after it. -/
def extractBraces (l : List Char) : Option (List Char) :=
  match firstBraceIdx l, lastBraceIdx l with
  | some i, some j => if i < j then some ((l.drop i).take (j - i + 1)) else none
  | _, _ => none

/-- Failure of the cleaning stage of `parseSuggestions`
(`throw new Error('No JSON found in response')`). -/
inductive NormError where
  | noJsonFound
deriving DecidableEq, Repr

/-- The cleaned text of `parseSuggestions` just before the brace match:
`rawResponse.trim()` followed by the two fence replaces. -/
def cleanedChars (raw : String) : List Char :=
  cleanFences (trimChars raw.toList)

/-- The Response Normalizer: the cleaning and JSON-extraction stage of
`parseSuggestions` (src/docs/ai-integration.md, Step 4), up to and including
the `cleaned.match(/\{[\s\S]*\}/)` check. -/
def normalizeResponse (raw : String) : Except NormError String :=
  match extractBraces (cleanedChars raw) with
  | some s => Except.ok (String.mk s)
  | none => Except.error NormError.noJsonFound

/-! ### JSON values and the Zod response schemas

`JSON.parse` is a JavaScript builtin; the pipeline treats it as an opaque
partial function from strings to JSON values, so the development keeps it as
an explicit parameter `jsonParse : String → Option Json`.  The Zod schemas
`suggestionSchema` and `aiResponseSchema` are embedded on parsed values. -/

/-- A parsed JSON value (the possible results of `JSON.parse`). -/
inductive Json where
  | null
  | bool (b : Bool)
  | num (n : Int)
  | str (s : String)
  | arr (elems : List Json)
  | obj (fields : List (String × Json))

/-- Field lookup in a JSON object (JS property access; JS objects cannot
hold duplicate keys, so first match is taken). -/
def lookupField (fs : List (String × Json)) (k : String) : Option Json :=
  (fs.find? (fun p => p.1 == k)).map (·.2)

/-- `z.string().min(1)`: the value must be a string of length at least one.
No trimming is applied by the schema. -/
def asNonemptyString (j : Json) : Option String :=
  match j with
  | Json.str s => if 1 ≤ s.length then some s else none
  | _ => none

/-- `suggestionSchema`: an object whose `title`, `reason` and `action`
fields are all present and are strings of length at least one
(src/lib/validation/schemas.ts, lines 159-163). -/
def suggestionOfJson (x : Json) : Option Suggestion :=
  match x with
  | Json.obj fs =>
    (lookupField fs "title").bind fun tj =>
    (asNonemptyString tj).bind fun t =>
    (lookupField fs "reason").bind fun rj =>
    (asNonemptyString rj).bind fun r =>
    (lookupField fs "action").bind fun aj =>
    (asNonemptyString aj).map fun a => Suggestion.mk t r a
  | _ => none

/-- Failures of the Schema Validator, following the error taxonomy of the
specification (section 4.3); Zod reports issues rather than these tags, but
acceptance and rejection coincide. -/
inductive ValidationError where
  | shapeMismatch
  | countOutOfRange
  | elementInvalid (idx : Nat)
deriving DecidableEq, Repr

/-- Element-wise validation of the `suggestions` array: the first invalid
element rejects the whole response, reporting its index. -/
def parseElems (i : Nat) : List Json → Except ValidationError (List Suggestion)
  | [] => Except.ok []
  | x :: xs =>
    match suggestionOfJson x with
    | none => Except.error (ValidationError.elementInvalid i)
    | some s => (parseElems (i + 1) xs).map (fun items => s :: items)

/-- `aiResponseSchema`: an object with a `suggestions` field that is an
array of between 1 and 10 valid suggestions
(src/lib/validation/schemas.ts, lines 169-171). -/
def aiResponseParse (j : Json) : Except ValidationError (List Suggestion) :=
  match j with
  | Json.obj fs =>
    match lookupField fs "suggestions" with
    | some (Json.arr xs) =>
      if 1 ≤ xs.length ∧ xs.length ≤ 10 then parseElems 0 xs
      else Except.error ValidationError.countOutOfRange
    | _ => Except.error ValidationError.shapeMismatch
  | _ => Except.error ValidationError.shapeMismatch

/-- The hard-coded fallback returned by the catch branch of
`parseSuggestions` (src/docs/ai-integration.md, lines 208-214). -/
def fallbackSuggestions : List Suggestion :=
  [{ title := "Start with Fundamentals",
     reason := "Building a strong foundation is crucial for long-term growth as a developer.",
     action := "Complete one online tutorial on core programming concepts this week." }]

/-- `parseSuggestions` (src/docs/ai-integration.md, Step 4): clean the raw
response, extract the outermost JSON object, `JSON.parse` it, validate with
`aiResponseSchema`; any failure of any stage is caught and answered with
`fallbackSuggestions`. -/
def parseSuggestions (jsonParse : String → Option Json) (rawResponse : String) :
    List Suggestion :=
  match normalizeResponse rawResponse with
  | Except.error _ => fallbackSuggestions
  | Except.ok candidate =>
    match jsonParse candidate with
    | none => fallbackSuggestions
    | some j =>
      match aiResponseParse j with
      | Except.error _ => fallbackSuggestions
      | Except.ok items => items

/-- Re-serialize a suggestion as the JSON object shape the schema expects
(used to state the fallback round-trip property). -/
def suggestionToJson (s : Suggestion) : Json :=
  Json.obj [("title", Json.str s.title), ("reason", Json.str s.reason),
            ("action", Json.str s.action)]

/-- Wrap a suggestion list in the top-level response shape
`{ "suggestions": [...] }`. -/
def wrapSuggestions (items : List Suggestion) : Json :=
  Json.obj [("suggestions", Json.arr (items.map suggestionToJson))]

/-! ### Input validation: `aiPromptSchema` -/

/-- Parse the `experienceLevel` field
(`z.enum(['beginner', 'intermediate', 'advanced'])`). -/
def parseLevel : String → Option ExperienceLevel
  | "beginner" => some ExperienceLevel.beginner
  | "intermediate" => some ExperienceLevel.intermediate
  | "advanced" => some ExperienceLevel.advanced
  | _ => none

/-- The `currentGoals` field: `z.string().max(1000).trim().optional()`.
Absent is accepted; present values are length-checked before the trim
transform, matching the order of the Zod chain. -/
def goalsField : Option String → Option (Option String)
  | none => some none
  | some g => if g.length ≤ 1000 then some (some (trimS g)) else none

/-- `aiPromptSchema` (src/lib/validation/schemas.ts, lines 139-151):
`userBackground` is `z.string().min(10).max(2000).trim()` — the length
bounds apply to the raw value, the trim transform runs after them —
together with `currentGoals` and `experienceLevel`. -/
def validateAiPrompt (b : RawBody) : Option AiPromptInput :=
  if 10 ≤ b.userBackground.length ∧ b.userBackground.length ≤ 2000 then
    match goalsField b.currentGoals, parseLevel b.experienceLevel with
    | some g, some lvl => some ⟨trimS b.userBackground, g, lvl⟩
    | _, _ => none
  else none

/-! ### Prompt Builder -/

/-- Render an experience level the way the JS template literal interpolates
it. -/
def levelToString : ExperienceLevel → String
  | ExperienceLevel.beginner => "beginner"
  | ExperienceLevel.intermediate => "intermediate"
  | ExperienceLevel.advanced => "advanced"

/-- An apostrophe, written via its code point. -/
def apos : String := String.mk [Char.ofNat 39]

/-- `buildProfileSuggestionPrompt` (src/docs/ai-integration.md, Step 2):
the template literal interpolating experience level, background, and an
optional goals line, trimmed at the end.  The constant instruction text is
kept in abridged form; no claim inspects the prompt content. -/
def buildProfileSuggestionPrompt (v : AiPromptInput) : String :=
  trimS ("\nI" ++ apos ++ "m a " ++ levelToString v.experienceLevel ++
    " software engineer who wants to improve my skills.\n\nBackground: " ++
    v.userBackground ++ "\n" ++
    (match v.currentGoals with
     | some g => "Current Goals: " ++ g
     | none => "") ++
    "\n\nBased on this information, suggest 3-5 specific things I should focus on" ++
    " to grow as a developer.\n\nIMPORTANT: Return ONLY valid JSON in this exact" ++
    " format, with no markdown or extra text:\n\n" ++
    "\x7b \"suggestions\": [ \x7b \"title\": \"Skill name\", \"reason\":" ++
    " \"Why this matters for your background\", \"action\":" ++
    " \"Specific action you can take this week\" \x7d ] \x7d\n")

/-! ### Persistence, rate limiting, caching, and the orchestrated operation

The route for POST /api/profile/suggestions is not implemented in the
repository; src/docs/ai-integration.md gives the code of each step and the
specification fixes how they compose (INPUT_VALIDATION, RATE_CHECK,
CACHE_LOOKUP, MODEL_CALL, PARSE, PERSIST, RESPOND, in that order — the
rate-limit snippet precedes the caching snippet in the source as well). -/

/-- A row of the `profile_suggestions` table as written by the insert in
Step 5: `{ user_id, suggestions, input_data }` plus the row creation time
(milliseconds since epoch, as compared by the rate-limit query). -/
structure StoredRecord where
  user_id : String
  suggestions : List Suggestion
  input_data : AiPromptInput
  created_at : Int
deriving DecidableEq, Repr

/-- The collaborators of one invocation: the clock (`Date.now()`), the
Completion Gateway (`openai.chat.completions.create`, `none` meaning
failure or timeout), the JS `JSON.parse` builtin, and whether the database
insert of Step 5 errors. -/
structure Env where
  now : Int
  gateway : String → Option String
  jsonParse : String → Option Json
  insertFails : Bool

/-- The caller-visible outcome of `requestSuggestions`.  `quotaExceeded`
carries the JSON body of the 429 response: its message, and the
`retryAfterSeconds` field when one is present (the source emits none).
`success` carries the suggestion list, the `cached` flag when the body has
one, and the `degraded` field when the body has one (the source emits
none). -/
inductive Result where
  | inputError
  | quotaExceeded (message : String) (retryAfterSeconds : Option Int)
  | success (suggestions : List Suggestion) (cached : Bool) (degraded : Option Bool)
deriving DecidableEq, Repr

/-- One full invocation: the response, the table after the call, and how
many times the Completion Gateway was invoked. -/
structure RunOutcome where
  result : Result
  table : List StoredRecord
  gatewayCalls : Nat
deriving DecidableEq, Repr

/-- The rolling rate-limit window: 24 hours in milliseconds
(`new Date(Date.now() - 24 * 60 * 60 * 1000)`). -/
def rateWindowMs : Int := 24 * 60 * 60 * 1000

/-- The body of the 429 response of the rate-limit snippet. -/
def quotaMessage : String := "You can only get suggestions once per day"

/-- The rate-limit query (src/docs/ai-integration.md, lines 376-389): does
the caller own a record created within the last 24 hours? -/
def hasRecentRecord (env : Env) (u : String) (table : List StoredRecord) : Bool :=
  table.any fun r =>
    decide (r.user_id = u) && decide (env.now - rateWindowMs ≤ r.created_at)

/-- Lowercase a character list (JS `toLowerCase`, ASCII range). -/
def lowerChars (l : List Char) : List Char := l.map Char.toLower

/-- Collapse every maximal whitespace run to a single space; the flag
records whether the previous character was whitespace. -/
def collapseWsAux : Bool → List Char → List Char
  | _, [] => []
  | prevWs, c :: rest =>
    if isWsChar c then
      if prevWs then collapseWsAux true rest
      else ' ' :: collapseWsAux true rest
    else c :: collapseWsAux false rest

/-- Modelled from the spec: the Similarity Cache matching key.  The caching
snippet in src/docs/ai-integration.md matches on
`ilike('input_data->userBackground', '%' + firstFewWords + '%')`, but
`firstFewWords` is never defined there; the specification (section 4.6)
fixes the rule as the lowercased, whitespace-collapsed first 30 characters
of the background. -/
def normalizeBgKey (s : String) : String :=
  String.mk ((collapseWsAux false (lowerChars s.toList)).take 30)

/-- A stored record matches a candidate input when the experience levels
are equal and the normalized background keys agree
(`eq('input_data->experienceLevel', ...)` plus the spec-modelled
`firstFewWords` rule). -/
def cacheMatches (v : AiPromptInput) (r : StoredRecord) : Bool :=
  decide (r.input_data.experienceLevel = v.experienceLevel) &&
  decide (normalizeBgKey r.input_data.userBackground = normalizeBgKey v.userBackground)

/-- The Similarity Cache lookup (`limit(1).single()`): the first stored
record matching the candidate input, if any. -/
def cacheLookup (v : AiPromptInput) (table : List StoredRecord) : Option StoredRecord :=
  table.find? (cacheMatches v)

/-- The Completion Gateway call followed by `parseSuggestions`.  A thrown
gateway error or timeout is recovered with the fallback list, exactly as a
null completion (`parseSuggestions(aiResponse || '')`) is; the
specification (section 5) fixes that recovery where the route sketch leaves
its catch block open. -/
def generatedItems (env : Env) (prompt : String) : List Suggestion :=
  match env.gateway prompt with
  | none => fallbackSuggestions
  | some raw => parseSuggestions env.jsonParse raw

/-- `requestSuggestions`, the orchestrated operation behind
POST /api/profile/suggestions: validate, rate-check, cache-lookup, build
the prompt, call the model, parse, store (continuing when the insert
errors, per the Step 5 comment), and respond with
`{ success, suggestions, metadata }`. -/
def requestSuggestions (env : Env) (u : String) (body : RawBody)
    (table : List StoredRecord) : RunOutcome :=
  match validateAiPrompt body with
  | none => ⟨Result.inputError, table, 0⟩
  | some v =>
    if hasRecentRecord env u table then
      ⟨Result.quotaExceeded quotaMessage none, table, 0⟩
    else
      match cacheLookup v table with
      | some r => ⟨Result.success r.suggestions true none, table, 0⟩
      | none =>
        let items := generatedItems env (buildProfileSuggestionPrompt v)
        let table' :=
          if env.insertFails then table
          else table ++ [⟨u, items, v, env.now⟩]
        ⟨Result.success items false none, table', 1⟩

/-! ### `markComplete` (supabase query helpers) -/

/-- One entry of the `completed_suggestions` JSONB column. -/
structure CompletedSuggestion where
  suggestionId : String
  completedAt : String
  notes : Option String
deriving DecidableEq, Repr

/-- The part of a `profile_suggestions` row that `markComplete` reads and
writes. -/
structure ProfileSuggestionRec where
  id : String
  user_id : String
  suggestions : List Suggestion
  completed_suggestions : Option (List CompletedSuggestion)
  rating : Option Int
deriving DecidableEq, Repr

/-- `queries.profileSuggestions.markComplete` (update arithmetic): on the
fetched row, if the suggestion is already completed return the row
unchanged; otherwise append one completion entry stamped with the current
time and write it back.  `nowIso` stands for `new Date().toISOString()`. -/
def markComplete (current : ProfileSuggestionRec) (suggestionId : String)
    (notes : Option String) (nowIso : String) : ProfileSuggestionRec :=
  let cs := current.completed_suggestions.getD []
  if cs.any (fun c => decide (c.suggestionId = suggestionId)) then current
  else { current with
         completed_suggestions := some (cs ++ [⟨suggestionId, nowIso, notes⟩]) }

/-! ### Concrete inputs used by witnesses and counterexamples -/

/-- A valid request body whose background has exactly 10 characters. -/
def okBody : RawBody := ⟨"ten chars!", none, "beginner"⟩

/-- The validated form of `okBody`. -/
def okInput : AiPromptInput := ⟨"ten chars!", none, ExperienceLevel.beginner⟩

/-- Collaborators for a run whose gateway fails and whose insert succeeds. -/
def envBase : Env := ⟨1700000000000, fun _ => none, fun _ => none, false⟩

/-- Collaborators for a run whose database insert errors. -/
def envNoStore : Env := ⟨1700000000000, fun _ => none, fun _ => none, true⟩

/-- A record stored for owner `alice` one second before `envBase.now`,
generated from `okInput`. -/
def recAlice : StoredRecord := ⟨"alice", fallbackSuggestions, okInput, 1699999999000⟩

/-- A suggestion element whose `title` is a single space: every field is a
non-empty string, but `title` is empty after trimming. -/
def cexElemJson : Json :=
  Json.obj [("title", Json.str " "), ("reason", Json.str "r"), ("action", Json.str "a")]

/-- A response whose only element is `cexElemJson`. -/
def cexJson : Json := Json.obj [("suggestions", Json.arr [cexElemJson])]

/-! ### Properties of the brace extraction -/

theorem firstBraceIdx_spec (l : List Char) (i : Nat) (h : firstBraceIdx l = some i) :
    i < l.length ∧ l.getD i ' ' = '{' ∧ ∀ k, k < i → l.getD k ' ' ≠ '{' := by
  induction l generalizing i with
  | nil => simp [firstBraceIdx] at h
  | cons c rest ih =>
    by_cases hc : c = '{'
    · simp [firstBraceIdx, hc] at h
      subst h
      refine ⟨by simp, by simpa using hc, ?_⟩
      intro k hk
      exact absurd hk (Nat.not_lt_zero k)
    · simp only [firstBraceIdx, if_neg hc] at h
      cases hf : firstBraceIdx rest with
      | none => rw [hf] at h; simp at h
      | some i2 =>
        rw [hf] at h
        simp only [Option.map_some'] at h
        obtain rfl : i2 + 1 = i := by simpa using h
        obtain ⟨h1, h2, h3⟩ := ih i2 hf
        refine ⟨by simpa using Nat.succ_lt_succ h1, by simpa using h2, ?_⟩
        intro k hk
        cases k with
        | zero => simpa using hc
        | succ k2 =>
          have : k2 < i2 := by omega
          simpa using h3 k2 this

theorem firstBraceIdx_eq_none (l : List Char) (h : firstBraceIdx l = none) :
    ∀ k, k < l.length → l.getD k ' ' ≠ '{' := by
  induction l with
  | nil => intro k hk; simp at hk
  | cons c rest ih =>
    by_cases hc : c = '{'
    · simp [firstBraceIdx, hc] at h
    · simp only [firstBraceIdx, if_neg hc, Option.map_eq_none'] at h
      intro k hk
      cases k with
      | zero => simpa using hc
      | succ k2 =>
        have : k2 < rest.length := by simpa using hk
        simpa using ih h k2 this

theorem lastBraceIdx_eq_none (l : List Char) (h : lastBraceIdx l = none) :
    ∀ k, k < l.length → l.getD k ' ' ≠ '}' := by
  induction l with
  | nil => intro k hk; simp at hk
  | cons c rest ih =>
    cases hr : lastBraceIdx rest with
    | some j => simp [lastBraceIdx, hr] at h
    | none =>
      simp only [lastBraceIdx, hr] at h
      have hc : ¬c = '}' := by
        by_contra hcc
        rw [if_pos hcc] at h
        simp at h
      intro k hk
      cases k with
      | zero => simpa using hc
      | succ k2 =>
        have : k2 < rest.length := by simpa using hk
        simpa using ih hr k2 this

theorem lastBraceIdx_spec (l : List Char) (j : Nat) (h : lastBraceIdx l = some j) :
    j < l.length ∧ l.getD j ' ' = '}' ∧ ∀ k, j < k → k < l.length → l.getD k ' ' ≠ '}' := by
  induction l generalizing j with
  | nil => simp [lastBraceIdx] at h
  | cons c rest ih =>
    cases hr : lastBraceIdx rest with
    | some j2 =>
      simp only [lastBraceIdx, hr] at h
      obtain rfl : j2 + 1 = j := by simpa using h
      obtain ⟨h1, h2, h3⟩ := ih j2 hr
      refine ⟨by simpa using Nat.succ_lt_succ h1, by simpa using h2, ?_⟩
      intro k hk hklen
      cases k with
      | zero => omega
      | succ k2 =>
        have hlt : j2 < k2 := by omega
        have hlen : k2 < rest.length := by simpa using hklen
        simpa using h3 k2 hlt hlen
    | none =>
      simp only [lastBraceIdx, hr] at h
      have hc : c = '}' := by
        by_contra hcc
        rw [if_neg hcc] at h
        simp at h
      rw [if_pos hc] at h
      obtain rfl : 0 = j := by simpa using h
      refine ⟨by simp, by simpa using hc, ?_⟩
      intro k hk hklen
      cases k with
      | zero => omega
      | succ k2 =>
        have : k2 < rest.length := by simpa using hklen
        simpa using lastBraceIdx_eq_none rest hr k2 this

theorem firstBraceIdx_isSome_of (l : List Char) (k : Nat) (hk : k < l.length)
    (hb : l.getD k ' ' = '{') : ∃ i, firstBraceIdx l = some i := by
  cases h : firstBraceIdx l with
  | none => exact absurd hb (firstBraceIdx_eq_none l h k hk)
  | some i => exact ⟨i, rfl⟩

theorem lastBraceIdx_isSome_of (l : List Char) (k : Nat) (hk : k < l.length)
    (hb : l.getD k ' ' = '}') : ∃ j, lastBraceIdx l = some j := by
  cases h : lastBraceIdx l with
  | none => exact absurd hb (lastBraceIdx_eq_none l h k hk)
  | some j => exact ⟨j, rfl⟩

theorem extractBraces_eq_none_iff (l : List Char) :
    extractBraces l = none ↔
      ¬ ∃ i j, i < j ∧ j < l.length ∧ l.getD i ' ' = '{' ∧ l.getD j ' ' = '}' := by
  constructor
  · intro hnone
    rintro ⟨i, j, hij, hjlen, hbi, hbj⟩
    have hilen : i < l.length := by omega
    obtain ⟨i0, hi0⟩ := firstBraceIdx_isSome_of l i hilen hbi
    obtain ⟨j0, hj0⟩ := lastBraceIdx_isSome_of l j hjlen hbj
    simp only [extractBraces, hi0, hj0] at hnone
    have hnotlt : ¬i0 < j0 := by
      by_contra hlt
      rw [if_pos hlt] at hnone
      simp at hnone
    obtain ⟨_, _, hfmin⟩ := firstBraceIdx_spec l i0 hi0
    obtain ⟨_, _, hlmax⟩ := lastBraceIdx_spec l j0 hj0
    have hi0le : i0 ≤ i := by
      by_contra hlt
      exact hfmin i (by omega) hbi
    have hjle : j ≤ j0 := by
      by_contra hlt
      exact hlmax j (by omega) hjlen hbj
    omega
  · intro hno
    cases hi0 : firstBraceIdx l with
    | none => simp [extractBraces, hi0]
    | some i0 =>
      cases hj0 : lastBraceIdx l with
      | none => simp [extractBraces, hi0, hj0]
      | some j0 =>
        simp only [extractBraces, hi0, hj0]
        obtain ⟨hfl, hfb, _⟩ := firstBraceIdx_spec l i0 hi0
        obtain ⟨hll, hlb, _⟩ := lastBraceIdx_spec l j0 hj0
        have hnotlt : ¬i0 < j0 := by
          intro hlt
          exact hno ⟨i0, j0, hlt, hll, hfb, hlb⟩
        rw [if_neg hnotlt]

theorem extractBraces_eq_some (l s : List Char) (h : extractBraces l = some s) :
    ∃ i j, firstBraceIdx l = some i ∧ lastBraceIdx l = some j ∧ i < j ∧
      s = (l.drop i).take (j - i + 1) := by
  cases hi0 : firstBraceIdx l with
  | none => simp [extractBraces, hi0] at h
  | some i0 =>
    cases hj0 : lastBraceIdx l with
    | none => simp [extractBraces, hi0, hj0] at h
    | some j0 =>
      simp only [extractBraces, hi0, hj0] at h
      by_cases hlt : i0 < j0
      · rw [if_pos hlt] at h
        exact ⟨i0, j0, rfl, rfl, hlt, by simpa using h.symm⟩
      · rw [if_neg hlt] at h
        simp at h

/-- C4: `normalizeResponse` first trims whitespace, then removes the
code-fence markers (the three-backtick sequences, whatever language tag
follows them), and then returns the substring of the remaining text from
the first `'{'` to the last `'}'` inclusive; it fails with `NoJsonFound`
exactly when no such brace pair exists in the cleaned text. -/
theorem C4_normalize_spec (raw : String) :
    (normalizeResponse raw = Except.error NormError.noJsonFound ↔
      ¬ ∃ i j, i < j ∧ j < (cleanedChars raw).length ∧
        (cleanedChars raw).getD i ' ' = '{' ∧ (cleanedChars raw).getD j ' ' = '}')
    ∧ (∀ s, normalizeResponse raw = Except.ok s →
        ∃ i j, i < j ∧ j < (cleanedChars raw).length ∧
          (cleanedChars raw).getD i ' ' = '{' ∧
          (∀ k, k < i → (cleanedChars raw).getD k ' ' ≠ '{') ∧
          (cleanedChars raw).getD j ' ' = '}' ∧
          (∀ k, j < k → k < (cleanedChars raw).length → (cleanedChars raw).getD k ' ' ≠ '}') ∧
          s = String.mk (((cleanedChars raw).drop i).take (j - i + 1))) := by
  constructor
  · rw [← extractBraces_eq_none_iff (cleanedChars raw)]
    unfold normalizeResponse
    cases h : extractBraces (cleanedChars raw) <;> simp
  · intro s hs
    unfold normalizeResponse at hs
    cases h : extractBraces (cleanedChars raw) with
    | none => rw [h] at hs; simp at hs
    | some t =>
      rw [h] at hs
      simp only [Except.ok.injEq] at hs
      obtain ⟨i, j, hi, hj, hij, hslice⟩ := extractBraces_eq_some _ _ h
      obtain ⟨h1, h2, h3⟩ := firstBraceIdx_spec _ _ hi
      obtain ⟨h4, h5, h6⟩ := lastBraceIdx_spec _ _ hj
      exact ⟨i, j, hij, h4, h2, h3, h5, h6, by rw [← hs, hslice]⟩

/-- Witness for C4 at the concrete raw response `"a{}b"`. -/
theorem C4_normalize_spec_witness :
    normalizeResponse "a\x7b\x7db" = Except.ok "\x7b\x7d" ∧
    ∃ i j, i < j ∧ j < (cleanedChars "a\x7b\x7db").length ∧
      (cleanedChars "a\x7b\x7db").getD i ' ' = '{' ∧
      (∀ k, k < i → (cleanedChars "a\x7b\x7db").getD k ' ' ≠ '{') ∧
      (cleanedChars "a\x7b\x7db").getD j ' ' = '}' ∧
      (∀ k, j < k → k < (cleanedChars "a\x7b\x7db").length →
        (cleanedChars "a\x7b\x7db").getD k ' ' ≠ '}') ∧
      "\x7b\x7d" = String.mk (((cleanedChars "a\x7b\x7db").drop i).take (j - i + 1)) :=
  ⟨rfl, (C4_normalize_spec "a\x7b\x7db").2 "\x7b\x7d" rfl⟩

/-! ### Properties of the Schema Validator -/

theorem string_one_le_length_iff (s : String) : 1 ≤ s.length ↔ s ≠ "" := by
  obtain ⟨data⟩ := s
  cases data with
  | nil => simp [String.length]
  | cons c cs =>
    simp only [String.length]
    constructor
    · intro _ hne
      have h2 : (c :: cs : List Char) = [] := by
        simpa using congrArg String.data hne
      simp at h2
    · intro _
      simp

theorem asNonemptyString_eq_some (j : Json) (t : String) :
    asNonemptyString j = some t ↔ j = Json.str t ∧ t ≠ "" := by
  cases j with
  | str s =>
    simp only [asNonemptyString, Json.str.injEq]
    by_cases h : 1 ≤ s.length
    · rw [if_pos h]
      have hne := (string_one_le_length_iff s).mp h
      constructor
      · intro h2
        obtain rfl : s = t := by simpa using h2
        exact ⟨rfl, hne⟩
      · rintro ⟨rfl, _⟩
        rfl
    · rw [if_neg h]
      constructor
      · intro h2
        simp at h2
      · rintro ⟨rfl, hne⟩
        exact absurd ((string_one_le_length_iff s).mpr hne) h
  | null => simp [asNonemptyString]
  | bool b => simp [asNonemptyString]
  | num n => simp [asNonemptyString]
  | arr xs => simp [asNonemptyString]
  | obj fs => simp [asNonemptyString]

theorem suggestionOfJson_isSome_iff (x : Json) :
    (∃ s, suggestionOfJson x = some s) ↔
      ∃ gs t r a, x = Json.obj gs ∧
        lookupField gs "title" = some (Json.str t) ∧ t ≠ "" ∧
        lookupField gs "reason" = some (Json.str r) ∧ r ≠ "" ∧
        lookupField gs "action" = some (Json.str a) ∧ a ≠ "" := by
  cases x with
  | obj gs =>
    simp only [suggestionOfJson, Option.bind_eq_some, Option.map_eq_some',
      asNonemptyString_eq_some, Json.obj.injEq]
    constructor
    · rintro ⟨s, tj, htj, t, ⟨rfl, ht⟩, rj, hrj, r, ⟨rfl, hr⟩, aj, haj, a, ⟨rfl, ha⟩, rfl⟩
      exact ⟨gs, t, r, a, rfl, htj, ht, hrj, hr, haj, ha⟩
    · rintro ⟨gs2, t, r, a, rfl, htj, ht, hrj, hr, haj, ha⟩
      exact ⟨⟨t, r, a⟩, Json.str t, htj, t, ⟨rfl, ht⟩, Json.str r, hrj, r, ⟨rfl, hr⟩,
        Json.str a, haj, a, ⟨rfl, ha⟩, rfl⟩
  | null => simp [suggestionOfJson]
  | bool b => simp [suggestionOfJson]
  | num n => simp [suggestionOfJson]
  | str s => simp [suggestionOfJson]
  | arr xs => simp [suggestionOfJson]

theorem parseElems_ok_iff (xs : List Json) (i : Nat) :
    (∃ items, parseElems i xs = Except.ok items) ↔
      ∀ x ∈ xs, ∃ s, suggestionOfJson x = some s := by
  induction xs generalizing i with
  | nil => simp [parseElems]
  | cons x xs ih =>
    simp only [parseElems, List.forall_mem_cons]
    cases hx : suggestionOfJson x with
    | none => simp [hx]
    | some s =>
      simp only [hx]
      cases hp : parseElems (i + 1) xs with
      | error e =>
        have h2 := ih (i + 1)
        rw [hp] at h2
        constructor
        · rintro ⟨items, hitems⟩
          simp [Except.map] at hitems
        · rintro ⟨_, hall⟩
          obtain ⟨items, hbad⟩ := h2.mpr hall
          simp at hbad
      | ok its =>
        have h2 := ih (i + 1)
        rw [hp] at h2
        constructor
        · intro _
          exact ⟨⟨s, rfl⟩, h2.mp ⟨its, rfl⟩⟩
        · intro _
          exact ⟨s :: its, by simp [Except.map]⟩

theorem parseElems_ok_length (xs : List Json) (i : Nat) (items : List Suggestion)
    (h : parseElems i xs = Except.ok items) : items.length = xs.length := by
  induction xs generalizing i items with
  | nil =>
    simp only [parseElems, Except.ok.injEq] at h
    subst h
    rfl
  | cons x xs ih =>
    simp only [parseElems] at h
    cases hx : suggestionOfJson x with
    | none => rw [hx] at h; simp at h
    | some s =>
      rw [hx] at h
      cases hp : parseElems (i + 1) xs with
      | error e =>
        rw [hp] at h
        simp [Except.map] at h
      | ok its =>
        rw [hp] at h
        simp only [Except.map, Except.ok.injEq] at h
        rw [← h]
        simp only [List.length_cons]
        rw [ih (i + 1) its hp]

theorem aiResponseParse_ok_length (j : Json) (items : List Suggestion)
    (h : aiResponseParse j = Except.ok items) :
    1 ≤ items.length ∧ items.length ≤ 10 := by
  cases j with
  | obj fs =>
    simp only [aiResponseParse] at h
    cases hl : lookupField fs "suggestions" with
    | none => simp [hl] at h
    | some jv =>
      cases jv with
      | arr xs =>
        simp only [hl] at h
        by_cases hlen : 1 ≤ xs.length ∧ xs.length ≤ 10
        · rw [if_pos hlen] at h
          have hle := parseElems_ok_length xs 0 items h
          omega
        · rw [if_neg hlen] at h
          simp at h
      | null => simp [hl] at h
      | bool b => simp [hl] at h
      | num n => simp [hl] at h
      | str s => simp [hl] at h
      | obj fs2 => simp [hl] at h
  | null => simp [aiResponseParse] at h
  | bool b => simp [aiResponseParse] at h
  | num n => simp [aiResponseParse] at h
  | str s => simp [aiResponseParse] at h
  | arr xs => simp [aiResponseParse] at h

/-- C3 (amended): the Schema Validator accepts exactly when the value is an
object with a `suggestions` array of length 1 to 10 whose every element is
an object carrying string fields `title`, `reason`, `action` that are
non-empty as given — no trimming is applied, so whitespace-only fields are
accepted.  A single invalid element (or an out-of-range count) rejects the
entire response. -/
theorem C3_validator_characterization (j : Json) :
    (∃ items, aiResponseParse j = Except.ok items) ↔
      ∃ fs xs, j = Json.obj fs ∧
        lookupField fs "suggestions" = some (Json.arr xs) ∧
        1 ≤ xs.length ∧ xs.length ≤ 10 ∧
        ∀ x ∈ xs, ∃ gs t r a, x = Json.obj gs ∧
          lookupField gs "title" = some (Json.str t) ∧ t ≠ "" ∧
          lookupField gs "reason" = some (Json.str r) ∧ r ≠ "" ∧
          lookupField gs "action" = some (Json.str a) ∧ a ≠ "" := by
  cases j with
  | obj fs =>
    simp only [aiResponseParse, Json.obj.injEq]
    cases hl : lookupField fs "suggestions" with
    | none =>
      simp only [hl]
      constructor
      · rintro ⟨items, h⟩; simp at h
      · rintro ⟨fs2, xs, rfl, hl2, _⟩
        rw [hl] at hl2
        simp at hl2
    | some jv =>
      cases jv with
      | arr xs =>
        simp only [hl]
        by_cases hlen : 1 ≤ xs.length ∧ xs.length ≤ 10
        · rw [if_pos hlen]
          rw [parseElems_ok_iff xs 0]
          constructor
          · intro hall
            refine ⟨fs, xs, rfl, hl, hlen.1, hlen.2, ?_⟩
            intro x hx
            exact (suggestionOfJson_isSome_iff x).mp (hall x hx)
          · rintro ⟨fs2, xs2, rfl, hl2, _, _, hall⟩
            rw [hl] at hl2
            obtain rfl : xs = xs2 := by simpa using hl2
            intro x hx
            exact (suggestionOfJson_isSome_iff x).mpr (hall x hx)
        · rw [if_neg hlen]
          constructor
          · rintro ⟨items, h⟩; simp at h
          · rintro ⟨fs2, xs2, rfl, hl2, h1, h2, _⟩
            rw [hl] at hl2
            obtain rfl : xs = xs2 := by simpa using hl2
            exact absurd ⟨h1, h2⟩ hlen
      | null =>
        simp only [hl]
        constructor
        · rintro ⟨items, h⟩; simp at h
        · rintro ⟨fs2, xs2, rfl, hl2, _⟩
          rw [hl] at hl2; simp at hl2
      | bool b =>
        simp only [hl]
        constructor
        · rintro ⟨items, h⟩; simp at h
        · rintro ⟨fs2, xs2, rfl, hl2, _⟩
          rw [hl] at hl2; simp at hl2
      | num n =>
        simp only [hl]
        constructor
        · rintro ⟨items, h⟩; simp at h
        · rintro ⟨fs2, xs2, rfl, hl2, _⟩
          rw [hl] at hl2; simp at hl2
      | str s =>
        simp only [hl]
        constructor
        · rintro ⟨items, h⟩; simp at h
        · rintro ⟨fs2, xs2, rfl, hl2, _⟩
          rw [hl] at hl2; simp at hl2
      | obj fs3 =>
        simp only [hl]
        constructor
        · rintro ⟨items, h⟩; simp at h
        · rintro ⟨fs2, xs2, rfl, hl2, _⟩
          rw [hl] at hl2; simp at hl2
  | null => simp [aiResponseParse]
  | bool b => simp [aiResponseParse]
  | num n => simp [aiResponseParse]
  | str s => simp [aiResponseParse]
  | arr xs => simp [aiResponseParse]

/-- Counterexample to C3 as stated: the validator accepts a response whose
only element has the single-space title `" "` — a string that is non-empty
before, but empty after, trimming.  Acceptance is therefore not conditioned
on the fields being non-empty after trimming. -/
theorem C3_counterexample :
    aiResponseParse cexJson = Except.ok [⟨" ", "r", "a"⟩] ∧ trimS " " = "" :=
  ⟨rfl, rfl⟩

/-- C7: the Fallback Generator is a fixed single-item sequence, and
wrapping it in the response shape passes the Schema Validator unchanged
(round-trip). -/
theorem C7_fallback_roundtrip :
    fallbackSuggestions.length = 1 ∧
    aiResponseParse (wrapSuggestions fallbackSuggestions) =
      Except.ok fallbackSuggestions :=
  ⟨rfl, rfl⟩

/-! ### Properties of the parse stage and the orchestrated operation -/

theorem parseSuggestions_length (jp : String → Option Json) (raw : String) :
    1 ≤ (parseSuggestions jp raw).length ∧ (parseSuggestions jp raw).length ≤ 10 := by
  unfold parseSuggestions
  cases hn : normalizeResponse raw with
  | error e => simp [fallbackSuggestions]
  | ok candidate =>
    cases hj : jp candidate with
    | none => simp [hj, fallbackSuggestions]
    | some j =>
      cases hv : aiResponseParse j with
      | error e => simp [hj, hv, fallbackSuggestions]
      | ok items =>
        simp only [hj, hv]
        exact aiResponseParse_ok_length j items hv

theorem generatedItems_length (env : Env) (p : String) :
    1 ≤ (generatedItems env p).length ∧ (generatedItems env p).length ≤ 10 := by
  unfold generatedItems
  cases hg : env.gateway p with
  | none => simp [hg, fallbackSuggestions]
  | some raw =>
    simp only [hg]
    exact parseSuggestions_length env.jsonParse raw

theorem hasRecentRecord_iff (env : Env) (u : String) (table : List StoredRecord) :
    hasRecentRecord env u table = true ↔
      ∃ r ∈ table, r.user_id = u ∧ env.now - rateWindowMs ≤ r.created_at := by
  simp [hasRecentRecord, List.any_eq_true]

theorem find?_isSome_of_mem {α : Type} (p : α → Bool) (l : List α) (x : α)
    (hx : x ∈ l) (hp : p x = true) : ∃ y, l.find? p = some y := by
  induction l with
  | nil => simp at hx
  | cons a l ih =>
    cases hx with
    | head => exact ⟨x, by simp [List.find?, hp]⟩
    | tail b hx2 =>
      cases ha : p a with
      | true => exact ⟨a, by simp [List.find?, ha]⟩
      | false =>
        obtain ⟨y, hy⟩ := ih hx2
        exact ⟨y, by simp [List.find?, ha, hy]⟩

theorem requestSuggestions_input_error (env : Env) (u : String) (body : RawBody)
    (table : List StoredRecord) (hv : validateAiPrompt body = none) :
    requestSuggestions env u body table = ⟨Result.inputError, table, 0⟩ := by
  simp [requestSuggestions, hv]

theorem requestSuggestions_quota (env : Env) (u : String) (body : RawBody)
    (table : List StoredRecord) (v : AiPromptInput)
    (hv : validateAiPrompt body = some v) (hq : hasRecentRecord env u table = true) :
    requestSuggestions env u body table =
      ⟨Result.quotaExceeded quotaMessage none, table, 0⟩ := by
  simp [requestSuggestions, hv, hq]

theorem requestSuggestions_cache_hit (env : Env) (u : String) (body : RawBody)
    (table : List StoredRecord) (v : AiPromptInput) (r : StoredRecord)
    (hv : validateAiPrompt body = some v) (hq : hasRecentRecord env u table = false)
    (hc : cacheLookup v table = some r) :
    requestSuggestions env u body table =
      ⟨Result.success r.suggestions true none, table, 0⟩ := by
  simp [requestSuggestions, hv, hq, hc]

theorem requestSuggestions_generate (env : Env) (u : String) (body : RawBody)
    (table : List StoredRecord) (v : AiPromptInput)
    (hv : validateAiPrompt body = some v) (hq : hasRecentRecord env u table = false)
    (hc : cacheLookup v table = none) :
    requestSuggestions env u body table =
      ⟨Result.success (generatedItems env (buildProfileSuggestionPrompt v)) false none,
       if env.insertFails then table
       else table ++ [⟨u, generatedItems env (buildProfileSuggestionPrompt v), v, env.now⟩],
       1⟩ := by
  simp [requestSuggestions, hv, hq, hc]

/-- C8: for every request over a well-formed table, `requestSuggestions`
returns a success with 1 to 10 suggestions, a typed quota denial, or a
typed input error — never an untyped failure; and the parse stage is total:
for every raw model string (and every behaviour of `JSON.parse`) it returns
between 1 and 10 items, any normalization or validation error yielding the
fallback item. -/
theorem C8_typed_results (env : Env) (u : String) (body : RawBody)
    (table : List StoredRecord)
    (hinv : ∀ r ∈ table, 1 ≤ r.suggestions.length ∧ r.suggestions.length ≤ 10) :
    ((requestSuggestions env u body table).result = Result.inputError ∨
     (∃ m ra, (requestSuggestions env u body table).result = Result.quotaExceeded m ra) ∨
     (∃ items c d, (requestSuggestions env u body table).result = Result.success items c d ∧
        1 ≤ items.length ∧ items.length ≤ 10))
    ∧ ∀ (jp : String → Option Json) (raw : String),
        1 ≤ (parseSuggestions jp raw).length ∧ (parseSuggestions jp raw).length ≤ 10 := by
  refine ⟨?_, fun jp raw => parseSuggestions_length jp raw⟩
  cases hv : validateAiPrompt body with
  | none =>
    rw [requestSuggestions_input_error env u body table hv]
    exact Or.inl rfl
  | some v =>
    cases hq : hasRecentRecord env u table with
    | true =>
      rw [requestSuggestions_quota env u body table v hv hq]
      exact Or.inr (Or.inl ⟨quotaMessage, none, rfl⟩)
    | false =>
      cases hc : cacheLookup v table with
      | some r =>
        rw [requestSuggestions_cache_hit env u body table v r hv hq hc]
        have hmem := List.mem_of_find?_eq_some hc
        exact Or.inr (Or.inr ⟨r.suggestions, true, none, rfl,
          (hinv r hmem).1, (hinv r hmem).2⟩)
      | none =>
        rw [requestSuggestions_generate env u body table v hv hq hc]
        exact Or.inr (Or.inr ⟨generatedItems env (buildProfileSuggestionPrompt v),
          false, none, rfl,
          (generatedItems_length env _).1, (generatedItems_length env _).2⟩)

/-- Witness for C8 at a concrete environment, caller, body and table. -/
theorem C8_typed_results_witness :
    (∀ r ∈ ([] : List StoredRecord), 1 ≤ r.suggestions.length ∧ r.suggestions.length ≤ 10) ∧
    (((requestSuggestions envBase "alice" okBody []).result = Result.inputError ∨
      (∃ m ra, (requestSuggestions envBase "alice" okBody []).result =
        Result.quotaExceeded m ra) ∨
      (∃ items c d, (requestSuggestions envBase "alice" okBody []).result =
        Result.success items c d ∧ 1 ≤ items.length ∧ items.length ≤ 10))
     ∧ ∀ (jp : String → Option Json) (raw : String),
        1 ≤ (parseSuggestions jp raw).length ∧ (parseSuggestions jp raw).length ≤ 10) :=
  ⟨by simp, C8_typed_results envBase "alice" okBody [] (by simp)⟩

/-- C2 (amended): for a valid body, whenever the caller owns a record
younger than 24 hours the request is denied with the fixed 429 message and
no `retryAfterSeconds` field; whenever the caller owns no such record the
request produces a success result (so the first of two rapid-fire calls
succeeds and the second is denied). -/
theorem C2_quota_denial (env : Env) (u : String) (body : RawBody) (v : AiPromptInput)
    (table : List StoredRecord) (hv : validateAiPrompt body = some v) :
    ((∃ r ∈ table, r.user_id = u ∧ env.now - rateWindowMs ≤ r.created_at) →
      (requestSuggestions env u body table).result =
        Result.quotaExceeded quotaMessage none)
    ∧ ((∀ r ∈ table, r.user_id = u → r.created_at < env.now - rateWindowMs) →
      ∃ items c d, (requestSuggestions env u body table).result =
        Result.success items c d) := by
  constructor
  · intro hex
    rw [requestSuggestions_quota env u body table v hv
      ((hasRecentRecord_iff env u table).mpr hex)]
  · intro hall
    have hq : hasRecentRecord env u table = false := by
      cases hqb : hasRecentRecord env u table with
      | false => rfl
      | true =>
        obtain ⟨r, hmem, hu, hle⟩ := (hasRecentRecord_iff env u table).mp hqb
        have := hall r hmem hu
        omega
    cases hc : cacheLookup v table with
    | some r =>
      rw [requestSuggestions_cache_hit env u body table v r hv hq hc]
      exact ⟨r.suggestions, true, none, rfl⟩
    | none =>
      rw [requestSuggestions_generate env u body table v hv hq hc]
      exact ⟨generatedItems env (buildProfileSuggestionPrompt v), false, none, rfl⟩

/-- Witness for C2 at a concrete owner with a one-second-old record. -/
theorem C2_quota_denial_witness :
    validateAiPrompt okBody = some okInput ∧
    (∃ r ∈ [recAlice], r.user_id = "alice" ∧
      envBase.now - rateWindowMs ≤ r.created_at) ∧
    (requestSuggestions envBase "alice" okBody [recAlice]).result =
      Result.quotaExceeded quotaMessage none :=
  ⟨rfl, ⟨recAlice, by simp, rfl, by decide⟩,
    (C2_quota_denial envBase "alice" okBody okInput [recAlice] rfl).1
      ⟨recAlice, by simp, rfl, by decide⟩⟩

/-- Counterexample to C2 as stated: at a concrete state where the remaining
time until eligibility is positive, the denial is
`quotaExceeded quotaMessage none` — the 429 body carries no
`retryAfterSeconds` at all, hence not one equal to the remaining time. -/
theorem C2_counterexample :
    (requestSuggestions envBase "alice" okBody [recAlice]).result =
      Result.quotaExceeded quotaMessage none ∧
    (0 : Int) < recAlice.created_at + rateWindowMs - envBase.now ∧
    ∀ ra : Int, (requestSuggestions envBase "alice" okBody [recAlice]).result ≠
      Result.quotaExceeded quotaMessage (some ra) := by
  refine ⟨by decide, by decide, ?_⟩
  intro ra h
  rw [show (requestSuggestions envBase "alice" okBody [recAlice]).result =
    Result.quotaExceeded quotaMessage none from by decide] at h
  simp at h

/-- C1 (amended): on the generation path (valid input, open quota window,
cache miss), when the insert errors the operation does not fail — it logs
and continues, returning a success result while persisting nothing (the
Step 5 comment: continue anyway, do not fail just because storage failed);
when the insert succeeds exactly one record is persisted. -/
theorem C1_insert_failure (env : Env) (u : String) (body : RawBody) (v : AiPromptInput)
    (table : List StoredRecord)
    (hv : validateAiPrompt body = some v)
    (hq : hasRecentRecord env u table = false)
    (hc : cacheLookup v table = none) :
    (env.insertFails = true →
      (requestSuggestions env u body table).table = table ∧
      (requestSuggestions env u body table).result =
        Result.success (generatedItems env (buildProfileSuggestionPrompt v)) false none)
    ∧ (env.insertFails = false →
      (requestSuggestions env u body table).table =
        table ++ [⟨u, generatedItems env (buildProfileSuggestionPrompt v), v, env.now⟩] ∧
      (requestSuggestions env u body table).result =
        Result.success (generatedItems env (buildProfileSuggestionPrompt v)) false none) := by
  rw [requestSuggestions_generate env u body table v hv hq hc]
  constructor
  · intro hf
    simp [hf]
  · intro hf
    simp [hf]

/-- Witness for C1 (amended) at a concrete run whose insert errors. -/
theorem C1_insert_failure_witness :
    validateAiPrompt okBody = some okInput ∧
    hasRecentRecord envNoStore "alice" [] = false ∧
    cacheLookup okInput [] = none ∧
    envNoStore.insertFails = true ∧
    (requestSuggestions envNoStore "alice" okBody []).table = [] ∧
    (requestSuggestions envNoStore "alice" okBody []).result =
      Result.success (generatedItems envNoStore (buildProfileSuggestionPrompt okInput))
        false none :=
  ⟨rfl, rfl, rfl, rfl,
    ((C1_insert_failure envNoStore "alice" okBody okInput [] rfl rfl rfl).1 rfl).1,
    ((C1_insert_failure envNoStore "alice" okBody okInput [] rfl rfl rfl).1 rfl).2⟩

/-- Counterexample to C1 as stated: with a failing insert on an otherwise
clean run, the operation still answers success (no `PersistenceError` is
surfaced) and the table afterwards holds no record at all — not exactly
one. -/
theorem C1_counterexample :
    (requestSuggestions envNoStore "alice" okBody []).result =
      Result.success fallbackSuggestions false none ∧
    (requestSuggestions envNoStore "alice" okBody []).table = [] := by
  exact ⟨by decide, by decide⟩

/-- C5 (amended): for a valid body whose caller has an open quota window,
if the table holds a record with the same `experienceLevel` whose
background agrees on the normalized (lowercased, whitespace-collapsed)
first 30 characters, the call is a cache hit: some matching stored record's
items are returned verbatim under `cached := true`, the Completion Gateway
is never invoked, and no new record is created.  (Same-owner rapid-fire
repeats are instead denied by the quota gate — see the counterexample.) -/
theorem C5_cache_hit (env : Env) (u : String) (body : RawBody) (v : AiPromptInput)
    (table : List StoredRecord) (r : StoredRecord)
    (hv : validateAiPrompt body = some v)
    (hq : hasRecentRecord env u table = false)
    (hmem : r ∈ table)
    (hlvl : r.input_data.experienceLevel = v.experienceLevel)
    (hkey : normalizeBgKey r.input_data.userBackground = normalizeBgKey v.userBackground) :
    ∃ rHit, cacheLookup v table = some rHit ∧
      requestSuggestions env u body table =
        ⟨Result.success rHit.suggestions true none, table, 0⟩ := by
  have hmatch : cacheMatches v r = true := by
    simp [cacheMatches, hlvl, hkey]
  obtain ⟨rHit, hr⟩ := find?_isSome_of_mem (cacheMatches v) table r hmem hmatch
  exact ⟨rHit, hr, requestSuggestions_cache_hit env u body table v rHit hv hq hr⟩

/-- Witness for C5 (amended): a second caller with a background agreeing on
the first 30 normalized characters gets the stored items, zero gateway
calls, and an unchanged table. -/
theorem C5_cache_hit_witness :
    validateAiPrompt okBody = some okInput ∧
    hasRecentRecord envBase "bob" [recAlice] = false ∧
    recAlice ∈ [recAlice] ∧
    recAlice.input_data.experienceLevel = okInput.experienceLevel ∧
    normalizeBgKey recAlice.input_data.userBackground =
      normalizeBgKey okInput.userBackground ∧
    ∃ rHit, cacheLookup okInput [recAlice] = some rHit ∧
      requestSuggestions envBase "bob" okBody [recAlice] =
        ⟨Result.success rHit.suggestions true none, [recAlice], 0⟩ :=
  ⟨rfl, by decide, by simp, rfl, rfl,
    C5_cache_hit envBase "bob" okBody okInput [recAlice] recAlice rfl (by decide)
      (by simp) rfl rfl⟩

/-- Counterexample to C5 as stated: the claim quantifies over every second
call, but when the second call comes from the same owner within 24 hours it
is denied by the rate limiter before the cache is consulted — even though a
stored record matches the input exactly — so it is not a cache hit. -/
theorem C5_counterexample :
    validateAiPrompt okBody = some okInput ∧
    cacheMatches okInput recAlice = true ∧
    (requestSuggestions envBase "alice" okBody [recAlice]).result =
      Result.quotaExceeded quotaMessage none ∧
    ∀ items d, (requestSuggestions envBase "alice" okBody [recAlice]).result ≠
      Result.success items true d := by
  refine ⟨rfl, by decide, by decide, ?_⟩
  intro items d h
  rw [show (requestSuggestions envBase "alice" okBody [recAlice]).result =
    Result.quotaExceeded quotaMessage none from by decide] at h
  simp at h

/-- C6 (amended): gateway failures/timeouts and normalization/validation
failures are never surfaced as hard failures — the caller receives an
ordinary success response carrying the fallback item — but the response is
not labeled: its `degraded` field is absent (`none`), so the fallback path
is invisible to the caller. -/
theorem C6_fallback_invisible (env : Env) (u : String) (body : RawBody)
    (v : AiPromptInput) (table : List StoredRecord)
    (hv : validateAiPrompt body = some v)
    (hq : hasRecentRecord env u table = false)
    (hc : cacheLookup v table = none)
    (hfb : generatedItems env (buildProfileSuggestionPrompt v) = fallbackSuggestions) :
    (requestSuggestions env u body table).result =
      Result.success fallbackSuggestions false none := by
  rw [requestSuggestions_generate env u body table v hv hq hc]
  simp [hfb]

/-- Witness for C6 (amended) at a concrete run whose gateway fails. -/
theorem C6_fallback_invisible_witness :
    validateAiPrompt okBody = some okInput ∧
    hasRecentRecord envBase "alice" [] = false ∧
    cacheLookup okInput [] = none ∧
    generatedItems envBase (buildProfileSuggestionPrompt okInput) = fallbackSuggestions ∧
    (requestSuggestions envBase "alice" okBody []).result =
      Result.success fallbackSuggestions false none :=
  ⟨rfl, rfl, rfl, rfl,
    C6_fallback_invisible envBase "alice" okBody okInput [] rfl rfl rfl rfl⟩

/-- Counterexample to C6 as stated: a run whose gateway fails produces the
fallback items under a plain success whose `degraded` field is `none` — no
boolean degraded flag labels the orchestration result. -/
theorem C6_counterexample :
    envBase.gateway (buildProfileSuggestionPrompt okInput) = none ∧
    (requestSuggestions envBase "alice" okBody []).result =
      Result.success fallbackSuggestions false none ∧
    ∀ b : Bool, (requestSuggestions envBase "alice" okBody []).result ≠
      Result.success fallbackSuggestions false (some b) := by
  refine ⟨rfl, by decide, ?_⟩
  intro b h
  rw [show (requestSuggestions envBase "alice" okBody []).result =
    Result.success fallbackSuggestions false none from by decide] at h
  simp at h

/-- C9: a background of exactly 9 characters is rejected with an input
error before the rate limiter is consulted and before any side effect (the
table is untouched and the gateway is never called); a background of
exactly 10 characters passes `aiPromptSchema` whenever the remaining fields
do; and any validation failure short-circuits the whole pipeline the same
way. -/
theorem C9_background_bounds :
    (∀ (env : Env) (u : String) (body : RawBody) (table : List StoredRecord),
      body.userBackground.length = 9 →
      requestSuggestions env u body table = ⟨Result.inputError, table, 0⟩)
    ∧ (∀ (body : RawBody) (g : Option String) (lvl : ExperienceLevel),
        body.userBackground.length = 10 →
        goalsField body.currentGoals = some g →
        parseLevel body.experienceLevel = some lvl →
        validateAiPrompt body = some ⟨trimS body.userBackground, g, lvl⟩)
    ∧ (∀ (env : Env) (u : String) (body : RawBody) (table : List StoredRecord),
        validateAiPrompt body = none →
        requestSuggestions env u body table = ⟨Result.inputError, table, 0⟩) := by
  refine ⟨?_, ?_, ?_⟩
  · intro env u body table hlen
    have hcond : ¬(10 ≤ body.userBackground.length ∧ body.userBackground.length ≤ 2000) := by
      rw [hlen]
      omega
    have hv : validateAiPrompt body = none := by
      unfold validateAiPrompt
      rw [if_neg hcond]
    exact requestSuggestions_input_error env u body table hv
  · intro body g lvl hlen hg hlvl
    have hcond : 10 ≤ body.userBackground.length ∧ body.userBackground.length ≤ 2000 := by
      rw [hlen]
      omega
    unfold validateAiPrompt
    rw [if_pos hcond]
    simp only [hg, hlvl]
  · intro env u body table hv
    exact requestSuggestions_input_error env u body table hv

/-- Witness for C9: the concrete 9-character background `"123456789"` is
rejected with no side effect, and the 10-character `okBody` validates. -/
theorem C9_background_bounds_witness :
    (RawBody.mk "123456789" none "beginner").userBackground.length = 9 ∧
    requestSuggestions envBase "alice" ⟨"123456789", none, "beginner"⟩ [] =
      ⟨Result.inputError, [], 0⟩ ∧
    okBody.userBackground.length = 10 ∧
    goalsField okBody.currentGoals = some none ∧
    parseLevel okBody.experienceLevel = some ExperienceLevel.beginner ∧
    validateAiPrompt okBody = some okInput :=
  ⟨rfl,
    C9_background_bounds.1 envBase "alice" ⟨"123456789", none, "beginner"⟩ [] rfl,
    rfl, rfl, rfl,
    C9_background_bounds.2.1 okBody none ExperienceLevel.beginner rfl rfl rfl⟩

/-! ### Properties of `markComplete` -/

theorem markComplete_of_any_true (r : ProfileSuggestionRec) (sid : String)
    (n : Option String) (t : String)
    (hb : ((r.completed_suggestions.getD []).any
      fun c => decide (c.suggestionId = sid)) = true) :
    markComplete r sid n t = r := by
  simp only [markComplete]
  rw [if_pos hb]

theorem markComplete_of_any_false (r : ProfileSuggestionRec) (sid : String)
    (n : Option String) (t : String)
    (hb : ((r.completed_suggestions.getD []).any
      fun c => decide (c.suggestionId = sid)) = false) :
    markComplete r sid n t =
      { r with
        completed_suggestions := some (r.completed_suggestions.getD [] ++ [⟨sid, t, n⟩]) } := by
  simp only [markComplete]
  rw [if_neg (by simp [hb])]

/-- C10: `markComplete` is idempotent — when the suggestion is already in
`completed_suggestions` the record is returned unchanged and no duplicate
is appended; otherwise exactly one completion entry with that suggestionId
and the completion timestamp is appended; and a repeated call is a no-op. -/
theorem C10_markComplete_idempotent (r : ProfileSuggestionRec) (sid : String)
    (n n2 : Option String) (t t2 : String) :
    ((∃ c ∈ r.completed_suggestions.getD [], c.suggestionId = sid) →
      markComplete r sid n t = r)
    ∧ ((¬ ∃ c ∈ r.completed_suggestions.getD [], c.suggestionId = sid) →
      (markComplete r sid n t).completed_suggestions =
        some (r.completed_suggestions.getD [] ++ [⟨sid, t, n⟩]))
    ∧ markComplete (markComplete r sid n t) sid n2 t2 = markComplete r sid n t := by
  have hiff : (((r.completed_suggestions.getD []).any
      fun c => decide (c.suggestionId = sid)) = true) ↔
      ∃ c ∈ r.completed_suggestions.getD [], c.suggestionId = sid := by
    simp [List.any_eq_true]
  refine ⟨?_, ?_, ?_⟩
  · intro hex
    exact markComplete_of_any_true r sid n t (hiff.mpr hex)
  · intro hnex
    have hb : ((r.completed_suggestions.getD []).any
        fun c => decide (c.suggestionId = sid)) = false := by
      cases hb2 : (r.completed_suggestions.getD []).any
        fun c => decide (c.suggestionId = sid) with
      | false => rfl
      | true => exact absurd (hiff.mp hb2) hnex
    rw [markComplete_of_any_false r sid n t hb]
  · cases hb2 : (r.completed_suggestions.getD []).any
      fun c => decide (c.suggestionId = sid) with
    | true =>
      rw [markComplete_of_any_true r sid n t hb2, markComplete_of_any_true r sid n2 t2 hb2]
    | false =>
      rw [markComplete_of_any_false r sid n t hb2]
      exact markComplete_of_any_true _ sid n2 t2 (by simp)

/-- Witness for C10 on a concrete record: marking `"s1"` again is a no-op,
marking `"s2"` appends exactly one entry, and the repeated call leaves the
result unchanged. -/
theorem C10_markComplete_witness :
    (∃ c ∈ (ProfileSuggestionRec.mk "id1" "alice" [] (some [⟨"s1", "day0", none⟩])
        none).completed_suggestions.getD [], c.suggestionId = "s1") ∧
    markComplete ⟨"id1", "alice", [], some [⟨"s1", "day0", none⟩], none⟩ "s1" none "day1" =
      ⟨"id1", "alice", [], some [⟨"s1", "day0", none⟩], none⟩ ∧
    (¬ ∃ c ∈ (ProfileSuggestionRec.mk "id1" "alice" [] (some [⟨"s1", "day0", none⟩])
        none).completed_suggestions.getD [], c.suggestionId = "s2") ∧
    (markComplete ⟨"id1", "alice", [], some [⟨"s1", "day0", none⟩], none⟩ "s2"
        none "day1").completed_suggestions =
      some ([⟨"s1", "day0", none⟩] ++ [⟨"s2", "day1", none⟩]) ∧
    markComplete (markComplete ⟨"id1", "alice", [], some [⟨"s1", "day0", none⟩], none⟩
        "s1" none "day1") "s1" none "day2" =
      markComplete ⟨"id1", "alice", [], some [⟨"s1", "day0", none⟩], none⟩ "s1" none "day1" :=
  ⟨by decide,
    (C10_markComplete_idempotent ⟨"id1", "alice", [], some [⟨"s1", "day0", none⟩], none⟩
      "s1" none none "day1" "day2").1 (by decide),
    by decide,
    (C10_markComplete_idempotent ⟨"id1", "alice", [], some [⟨"s1", "day0", none⟩], none⟩
      "s2" none none "day1" "day2").2.1 (by decide),
    (C10_markComplete_idempotent ⟨"id1", "alice", [], some [⟨"s1", "day0", none⟩], none⟩
      "s1" none none "day1" "day2").2.2⟩
